import Mathlib

/-!
A shallow embedding of the `camillo` middleware library (Go) and proofs of
its specified properties.

Modelled source files: `camillo.go` (chain builder, dispatcher, `Wrap`
adapter), `recovery.go` (panic-recovery middleware), and the two historical
`contextStore` variants (a single-slot map variant with `Get`/`Add`/`Remove`,
and a stack-per-request variant with `Get`/`Push`/`Pop`).

Modelling conventions:
- A request identity (`*http.Request` pointer) is a natural number `Req`.
- A `context.Context` value is the inductive `Ctx`: `background` is the root
  context returned by `context.Background()`, and `cancelCtx parent id` is a
  cancellable child produced by `context.WithCancel(parent)`, tagged with a
  fresh numeric id drawn from a counter in the global state.
- A Go `context.Context` interface value may be nil, so values of that Go
  type are modelled as `GoCtx := Option Ctx` (`none` is the nil interface).
- A Go `map[K]V` may itself be nil; a map field is `Option (List (K × V))`
  with `none` the nil map, and indexing a missing key yields V's zero value.
- Mutable global state (the shared context store, the set of cancelled
  context ids, the fresh-id counter, response writes, log output) is a
  record `St` threaded explicitly through every call.
- A Go panic is modelled by the second component of `Result := St × Option
  PanicV`: `none` means normal return, `some p` means a panic with value `p`
  is unwinding.  State changes made before a panic persist (Go panics do not
  roll back effects), and `defer`-ed actions run on both exit paths.
-/

/-- Request identity: stands for the `*http.Request` pointer used as map key. -/
abbrev Req := Nat

/-- A non-nil `context.Context` value: the root returned by
`context.Background()`, or a cancellable child made by `context.WithCancel`,
tagged with a fresh id so distinct derivations are distinct. -/
inductive Ctx where
  | background : Ctx
  | cancelCtx (parent : Ctx) (id : Nat) : Ctx
deriving DecidableEq, Repr

/-- A Go `context.Context` interface value, which may be the nil interface. -/
abbrev GoCtx := Option Ctx

/-- Reading a Go map at a key: the first binding wins, a missing key yields
the value type's zero value (passed here as `z`). -/
def mapGet (m : List (Req × α)) (r : Req) (z : α) : α :=
  match m.find? (fun p => p.1 == r) with
  | some p => p.2
  | none => z

/-- Deleting a key from a Go map (`delete(m, r)`). -/
def mapErase (m : List (Req × α)) (r : Req) : List (Req × α) :=
  m.filter (fun p => p.1 != r)

/-- Assigning a key in a Go map (`m[r] = v`). -/
def mapInsert (m : List (Req × α)) (r : Req) (v : α) : List (Req × α) :=
  (r, v) :: mapErase m r

/-- The single-slot context store variant: `contexts` is a possibly-nil Go
map from request identity to a (possibly nil) context. -/
structure contextStore where
  contexts : Option (List (Req × GoCtx))
deriving DecidableEq, Repr

/-- `contextStore.Get`: nil map yields nil; otherwise the map lookup (whose
zero value for a missing key is the nil context). -/
def contextStore.Get (s : contextStore) (r : Req) : GoCtx :=
  match s.contexts with
  | none => none
  | some m => mapGet m r none

/-- `contextStore.Add`: allocates the map if nil, then assigns the key. -/
def contextStore.Add (s : contextStore) (r : Req) (c : GoCtx) : contextStore :=
  match s.contexts with
  | none => ⟨some (mapInsert [] r c)⟩
  | some m => ⟨some (mapInsert m r c)⟩

/-- `contextStore.Remove`: returns unchanged on a nil map, else deletes. -/
def contextStore.Remove (s : contextStore) (r : Req) : contextStore :=
  match s.contexts with
  | none => s
  | some m => ⟨some (mapErase m r)⟩

/-- The stack-per-request context store variant: each request maps to a Go
slice of contexts whose last element is the top of the stack. -/
structure contextStoreStack where
  contexts : Option (List (Req × List GoCtx))
deriving DecidableEq, Repr

/-- Stack variant `Get`: nil map yields nil; an empty (or missing, hence
zero-valued nil slice) stack yields nil; otherwise the last element. -/
def contextStoreStack.Get (s : contextStoreStack) (r : Req) : GoCtx :=
  match s.contexts with
  | none => none
  | some m =>
    let stack := mapGet m r []
    match stack.getLast? with
    | none => none
    | some c => c

/-- Stack variant `Push`: allocates the map if nil, then appends to the
request's slice (a missing key contributes the zero-valued empty slice). -/
def contextStoreStack.Push (s : contextStoreStack) (r : Req) (c : GoCtx) :
    contextStoreStack :=
  match s.contexts with
  | none => ⟨some (mapInsert [] r (([] : List GoCtx) ++ [c]))⟩
  | some m => ⟨some (mapInsert m r (mapGet m r [] ++ [c]))⟩

/-- Stack variant `Pop`: returns unchanged on a nil map; panics (modelled as
`Except.error` with the panic message) when the request's stack is empty or
its top is not the given context; otherwise drops the top, deleting the map
entry when the stack becomes empty. -/
def contextStoreStack.Pop (s : contextStoreStack) (r : Req) (c : GoCtx) :
    Except String contextStoreStack :=
  match s.contexts with
  | none => .ok s
  | some m =>
    let stack := mapGet m r []
    if stack.length = 0 then
      .error "unbalanced Push/Pop calls"
    else if stack.getLast? ≠ some c then
      .error "unbalanced Push/Pop calls"
    else
      let stack2 := stack.dropLast
      if stack2.length = 0 then
        .ok ⟨some (mapErase m r)⟩
      else
        .ok ⟨some (mapInsert m r stack2)⟩

/-- Whether the store's map currently holds a binding for `r` (distinct from
`Get` returning nil: a binding whose value is the nil context still counts). -/
def contextStore.hasEntry (s : contextStore) (r : Req) : Bool :=
  match s.contexts with
  | none => false
  | some m => (m.find? (fun p => p.1 == r)).isSome

/-- A Go panic value: `nilHandler` stands for the nil-pointer dereference
a zero-valued `middleware` node would raise, `val n` for any user panic. -/
inductive PanicV where
  | nilHandler : PanicV
  | val (n : Nat) : PanicV
deriving DecidableEq, Repr

/-- The captured output of `runtime.Stack` inside `Recovery`, abstracted:
it is determined here only by the buffer size and the all-goroutines flag. -/
structure StackTrace where
  size : Nat
  all : Bool
deriving DecidableEq, Repr

/-- A write observed on the response: a `WriteHeader(code)` call, or the
panic/stack text `Recovery` prints into the body via `fmt.Fprintf`. -/
inductive RespEvent where
  | writeHeader (code : Nat) : RespEvent
  | bodyPanic (p : PanicV) (st : StackTrace) : RespEvent
deriving DecidableEq, Repr

/-- A log line: `Recovery`'s `Logger.Printf("PANIC: %s\n%s", err, stack)`. -/
inductive LogEvent where
  | panicLog (p : PanicV) (st : StackTrace) : LogEvent
deriving DecidableEq, Repr

/-- An `http.ResponseWriter` value: either a raw writer handed in by the
host server, or the decoration produced by `NewResponseWriter`.

Modelled from the spec: `NewResponseWriter` and the `ResponseWriter`
wrapper type are not among the provided source files; per the spec the
wrapper "decorates the raw response writer to record the numeric status
code and byte count written" without altering content, so it is modelled
as an opaque decoration constructor around the raw writer. -/
inductive RW where
  | base (id : Nat) : RW
  | wrapped (inner : RW) : RW
deriving DecidableEq, Repr

/-- The global mutable state threaded through every call: the shared
single-slot context store (the variant `camillo.go` compiles against), the
ids of contexts whose cancel function has run, the fresh-id counter backing
`context.WithCancel`, the response writes and the log output. -/
structure St where
  store : contextStore
  cancelled : List Nat
  nextCtxId : Nat
  resp : List RespEvent
  logs : List LogEvent
deriving DecidableEq, Repr

/-- The outcome of running a piece of Go code: the state after it, and
`some p` when a panic `p` is unwinding (state changes persist either way). -/
abbrev Result := St × Option PanicV

/-- `NextFunc`: passes the request to the next middleware layer. -/
def NextFunc := GoCtx → RW → Req → St → Result

/-- A camillo `Handler`: `ServeHTTP(ctx, rw, r, next)` as a state function.
`HandlerFunc` is the identity adapter on this type and is not repeated. -/
def Handler := GoCtx → RW → Req → NextFunc → St → Result

/-- A plain `http.Handler`: sees only the writer and the request. -/
def PlainHandler := RW → Req → St → Result

/-- The linked `middleware` struct: `empty` is the zero value `middleware{}`
(nil handler, nil next), `node h next` is `middleware{h, &next}`. -/
inductive middleware where
  | empty : middleware
  | node (handler : Handler) (next : middleware) : middleware

/-- `middleware.ServeHTTP`: calls the node's handler with the next node's
`ServeHTTP` as continuation; on the zero value, the nil `handler` field
makes the call panic with a nil dereference. -/
def middleware.ServeHTTP : middleware → GoCtx → RW → Req → St → Result
  | .empty, _, _, _, s => (s, some PanicV.nilHandler)
  | .node h nxt, ctx, rw, r, s => h ctx rw r nxt.ServeHTTP s

/-- `voidMiddleware`: a node whose handler does nothing (and never calls
next), pointing at the degenerate zero-value node. -/
def voidMiddleware : middleware :=
  middleware.node (fun _ _ _ _ s => (s, none)) middleware.empty

/-- `build`: an empty handler list yields `voidMiddleware`; otherwise the
tail chain is built first and the head handler is prepended, so the first
handler listed becomes the outermost node. -/
def build : List Handler → middleware
  | [] => voidMiddleware
  | [h] => middleware.node h voidMiddleware
  | h :: rest => middleware.node h (build rest)

/-- `Wrap`: stores the current context in the shared store under the
request, runs the plain handler on (writer, request) alone, reads the
context back out of the store, and hands it to `next`.  A panic from the
plain handler propagates (there is no defer in `Wrap`). -/
def Wrap (handler : PlainHandler) : Handler :=
  fun ctx rw r next s =>
    let s1 : St := { s with store := s.store.Add r ctx }
    match handler rw r s1 with
    | (s2, some p) => (s2, some p)
    | (s2, none) => next (s2.store.Get r) rw r s2

/-- The `Camillo` instance: its configured base context (nil when none was
configured) and the built middleware chain.  The `handlers` slice only
feeds rebuilds and is not part of dispatch. -/
structure Camillo where
  ctx : GoCtx
  middleware : middleware

/-- `Camillo.ServeHTTP`: looks the request up in the shared store; if a
context is found the chain runs with it on a freshly wrapped writer and
nothing else happens; otherwise a cancellable context is derived from the
configured base (or from `context.Background()` when that is nil),
registered in the store, the chain runs, and the deferred `Remove` and
`cancel` fire on both normal return and panic unwind. -/
def Camillo.ServeHTTP (n : Camillo) (rw : RW) (r : Req) (s : St) : Result :=
  match s.store.Get r with
  | some ctx => n.middleware.ServeHTTP (some ctx) (RW.wrapped rw) r s
  | none =>
    let base : Ctx :=
      match n.ctx with
      | some c => c
      | none => Ctx.background
    let cid : Nat := s.nextCtxId
    let newCtx : Ctx := Ctx.cancelCtx base cid
    let s1 : St := { s with nextCtxId := s.nextCtxId + 1 }
    let s2 : St := { s1 with store := s1.store.Add r (some newCtx) }
    let res := n.middleware.ServeHTTP (some newCtx) (RW.wrapped rw) r s2
    let s3 : St := { res.1 with store := res.1.store.Remove r }
    let s4 : St := { s3 with cancelled := cid :: s3.cancelled }
    (s4, res.2)

/-- The `Recovery` middleware's configuration (its logger writes to the
log stream inside `St`). -/
structure Recovery where
  printStack : Bool
  stackAll : Bool
  stackSize : Nat
deriving DecidableEq, Repr

/-- `Recovery.ServeHTTP`: runs `next`; the deferred `recover` does nothing
on normal return, and on a panic writes a 500 header, logs the panic value
with the captured stack, echoes both into the body when `PrintStack` is
set, and swallows the panic. -/
def Recovery.ServeHTTP (rec : Recovery) (ctx : GoCtx) (rw : RW) (r : Req)
    (next : NextFunc) (s : St) : Result :=
  match next ctx rw r s with
  | (s1, none) => (s1, none)
  | (s1, some p) =>
    let st : StackTrace := ⟨rec.stackSize, rec.stackAll⟩
    let s2 : St := { s1 with resp := s1.resp ++ [RespEvent.writeHeader 500] }
    let s3 : St := { s2 with logs := s2.logs ++ [LogEvent.panicLog p st] }
    let s4 : St :=
      if rec.printStack then
        { s3 with resp := s3.resp ++ [RespEvent.bodyPanic p st] }
      else s3
    (s4, none)

/-- A handler that runs a "before" state action, delegates to `next`
exactly once, and runs an "after" state action on the way back out (the
shape of a Go handler `before; next(ctx, rw, r); after` — the after part is
skipped when the delegate panics, as straight-line Go code would be). -/
def onionHandler (b a : St → St) : Handler :=
  fun ctx rw r next s =>
    match next ctx rw r (b s) with
    | (s2, some q) => (s2, some q)
    | (s2, none) => (a s2, none)

/-- The request's current stack in the stack-variant store (empty both for
a nil map and for a missing key, mirroring Go's zero values). -/
def stackOf (t : contextStoreStack) (r : Req) : List GoCtx :=
  match t.contexts with
  | none => []
  | some m => mapGet m r []

/-- A pristine global state: zero-valued shared store, nothing cancelled,
fresh-id counter at zero, no response writes, no log output. -/
def St0 : St := ⟨⟨none⟩, [], 0, [], []⟩

/-- A state whose store already maps request `0` to the root context, as an
outer dispatch would have left it for a reentrant inner dispatch. -/
def St1 : St := ⟨⟨some [(0, some Ctx.background)]⟩, [], 0, [], []⟩

/-- A plain `http.Handler` that writes nothing and touches no state. -/
def idPlainHandler : PlainHandler := fun _ _ s => (s, none)

/-- A continuation that stops the chain: returns the state unchanged. -/
def haltNext : NextFunc := fun _ _ _ s => (s, none)

/-- A downstream continuation that panics with value `7`. -/
def panickingNext : NextFunc := fun _ _ _ s => (s, some (PanicV.val 7))

/-- The `Recovery` configuration produced by `NewRecovery()`:
`PrintStack = true`, `StackAll = false`, `StackSize = 8192`. -/
def defaultRecovery : Recovery := ⟨true, false, 8192⟩

/-- A `Camillo` instance with no configured base context and no handlers. -/
def camEmpty : Camillo := ⟨none, build []⟩

theorem build_cons (h : Handler) (rest : List Handler) :
    build (h :: rest) = middleware.node h (build rest) := by
  cases rest <;> rfl


-- Map law helpers shared by the store lemmas below.

theorem mapGet_mapInsert (m : List (Req × α)) (r : Req) (v z : α) :
    mapGet (mapInsert m r v) r z = v := by
  simp [mapGet, mapInsert, List.find?]

theorem find_mapErase (m : List (Req × α)) (r : Req) :
    (mapErase m r).find? (fun p => p.1 == r) = none := by
  induction m with
  | nil => rfl
  | cons p t ih =>
    by_cases h : p.1 = r
    · have hb : (p.1 != r) = false := by simp [h]
      simp only [mapErase, List.filter_cons, hb, Bool.false_eq_true, if_false] at ih ⊢
      exact ih
    · have hb : (p.1 != r) = true := by simp [h]
      have he : (p.1 == r) = false := by simp [h]
      simp only [mapErase, List.filter_cons, hb, if_true] at ih ⊢
      simp [List.find?_cons, he, ih]

theorem mapGet_mapErase (m : List (Req × α)) (r : Req) (z : α) :
    mapGet (mapErase m r) r z = z := by
  simp [mapGet, find_mapErase]

theorem contextStore.Get_Add (s : contextStore) (r : Req) (c : GoCtx) :
    (s.Add r c).Get r = c := by
  cases s with
  | mk contexts =>
    cases contexts <;> simp [contextStore.Add, contextStore.Get, mapGet_mapInsert]

theorem contextStore.Get_Remove (s : contextStore) (r : Req) :
    (s.Remove r).Get r = none := by
  cases s with
  | mk contexts =>
    cases contexts <;> simp [contextStore.Remove, contextStore.Get, mapGet_mapErase]

theorem contextStore.hasEntry_Add (s : contextStore) (r : Req) (c : GoCtx) :
    (s.Add r c).hasEntry r = true := by
  cases s with
  | mk contexts =>
    cases contexts <;> simp [contextStore.Add, contextStore.hasEntry, mapInsert, List.find?]

theorem contextStore.hasEntry_Remove (s : contextStore) (r : Req) :
    (s.Remove r).hasEntry r = false := by
  cases s with
  | mk contexts =>
    cases contexts <;> simp [contextStore.Remove, contextStore.hasEntry, find_mapErase]

theorem contextStoreStack.Get_Push (t : contextStoreStack) (r : Req) (c : GoCtx) :
    (t.Push r c).Get r = c := by
  cases t with
  | mk contexts =>
    cases contexts with
    | none =>
      simp [contextStoreStack.Push, contextStoreStack.Get, mapGet_mapInsert]
    | some m =>
      simp [contextStoreStack.Push, contextStoreStack.Get, mapGet_mapInsert]

theorem stack_push_pop_only (t : contextStoreStack) (r : Req) (c : GoCtx)
    (ht : stackOf t r = []) :
    ∃ t2, (t.Push r c).Pop r c = .ok t2 ∧ t2.Get r = none := by
  cases t with
  | mk contexts =>
    cases contexts with
    | none =>
      refine ⟨⟨some (mapErase (mapInsert [] r (([] : List GoCtx) ++ [c])) r)⟩, ?_, ?_⟩
      · simp [contextStoreStack.Push, contextStoreStack.Pop, mapGet_mapInsert]
      · simp [contextStoreStack.Get, mapGet_mapErase]
    | some m =>
      have hm : mapGet m r ([] : List GoCtx) = [] := by simpa [stackOf] using ht
      refine ⟨⟨some (mapErase (mapInsert m r (mapGet m r [] ++ [c])) r)⟩, ?_, ?_⟩
      · simp [contextStoreStack.Push, contextStoreStack.Pop, hm, mapGet_mapInsert]
      · simp [contextStoreStack.Get, mapGet_mapErase]

/-- C4: `Get` on a key never added returns nil (not an error); `Get`
immediately after `Add`/`Push` of a context under the same key returns that
context; and `Get` after `Remove` (single-slot variant), or after a
matching `Pop` of the only stacked context (stack variant), returns nil
again. -/
theorem store_round_trip (r : Req) (c : Ctx) (s : contextStore)
    (t : contextStoreStack) (ht : stackOf t r = []) :
    contextStore.Get ⟨none⟩ r = none
    ∧ (s.Add r (some c)).Get r = some c
    ∧ ((s.Add r (some c)).Remove r).Get r = none
    ∧ contextStoreStack.Get ⟨none⟩ r = none
    ∧ (t.Push r (some c)).Get r = some c
    ∧ ∃ t2, (t.Push r (some c)).Pop r (some c) = .ok t2 ∧ t2.Get r = none := by
  refine ⟨rfl, contextStore.Get_Add s r (some c), contextStore.Get_Remove _ r,
    rfl, contextStoreStack.Get_Push t r (some c), stack_push_pop_only t r (some c) ht⟩

theorem store_round_trip_witness :
    stackOf ⟨none⟩ 0 = []
    ∧ (contextStore.Get ⟨none⟩ 0 = none
      ∧ ((⟨none⟩ : contextStore).Add 0 (some Ctx.background)).Get 0 = some Ctx.background
      ∧ (((⟨none⟩ : contextStore).Add 0 (some Ctx.background)).Remove 0).Get 0 = none
      ∧ contextStoreStack.Get ⟨none⟩ 0 = none
      ∧ ((⟨none⟩ : contextStoreStack).Push 0 (some Ctx.background)).Get 0 = some Ctx.background
      ∧ ∃ t2, ((⟨none⟩ : contextStoreStack).Push 0 (some Ctx.background)).Pop 0 (some Ctx.background) = .ok t2
          ∧ t2.Get 0 = none) :=
  ⟨rfl, store_round_trip 0 Ctx.background ⟨none⟩ ⟨none⟩ rfl⟩

/-- C9: every store operation is total on the zero-value (never-initialized)
store: `Get` returns nil without panicking, `Remove` and `Pop` return
without effect, and `Add`/`Push` allocate the map on first use. -/
theorem store_zero_value_total (r : Req) (c : GoCtx) :
    contextStore.Get ⟨none⟩ r = none
    ∧ contextStore.Remove ⟨none⟩ r = ⟨none⟩
    ∧ ((contextStore.Add ⟨none⟩ r c).contexts).isSome = true
    ∧ (contextStore.Add ⟨none⟩ r c).Get r = c
    ∧ contextStoreStack.Get ⟨none⟩ r = none
    ∧ contextStoreStack.Pop ⟨none⟩ r c = .ok ⟨none⟩
    ∧ ((contextStoreStack.Push ⟨none⟩ r c).contexts).isSome = true
    ∧ (contextStoreStack.Push ⟨none⟩ r c).Get r = c := by
  refine ⟨rfl, rfl, rfl, contextStore.Get_Add ⟨none⟩ r c, rfl, rfl, rfl,
    contextStoreStack.Get_Push ⟨none⟩ r c⟩

/-- C5 counterexample: on the zero-value store (nil map) no context is
stacked for request `0`, yet `Pop` returns normally instead of panicking. -/
theorem pop_nil_map_returns_silently :
    contextStoreStack.Get ⟨none⟩ 0 = none
    ∧ stackOf ⟨none⟩ 0 = []
    ∧ contextStoreStack.Pop ⟨none⟩ 0 (some Ctx.background) = .ok ⟨none⟩ :=
  ⟨rfl, rfl, rfl⟩

/-- C5 (amended): once the store's map has been initialized (is non-nil), a
`Pop` whose context argument is not the identical top-of-stack context for
the key — including a `Pop` when no context is stacked for the key — panics
with "unbalanced Push/Pop calls" rather than silently continuing; only on a
never-initialized (nil-map) store does `Pop` return without effect. -/
theorem pop_mismatch_panics (m : List (Req × List GoCtx)) (r : Req) (c : GoCtx)
    (h : (mapGet m r ([] : List GoCtx)).getLast? ≠ some c) :
    contextStoreStack.Pop ⟨some m⟩ r c = .error "unbalanced Push/Pop calls" := by
  unfold contextStoreStack.Pop
  by_cases h0 : (mapGet m r ([] : List GoCtx)).length = 0
  · simp [h0]
  · simp [h0, h]

theorem pop_mismatch_panics_witness :
    ((mapGet [((0 : Req), [(some Ctx.background : GoCtx)])] 0 ([] : List GoCtx)).getLast?
        ≠ some (none : GoCtx))
    ∧ contextStoreStack.Pop ⟨some [((0 : Req), [(some Ctx.background : GoCtx)])]⟩ 0 none
        = .error "unbalanced Push/Pop calls" :=
  ⟨by decide, pop_mismatch_panics [((0 : Req), [(some Ctx.background : GoCtx)])] 0 none (by decide)⟩

/-- C1: for every ordered list of handlers each running a "before" state
action, delegating to `next` exactly once, and running an "after" state
action, dispatching through the chain made by `build` applies the "before"
actions in list order (left fold) and then the "after" actions in reverse
list order (right fold), with the first handler listed outermost, and the
dispatch returns normally. -/
theorem chain_onion_order (ps : List ((St → St) × (St → St)))
    (ctx : GoCtx) (rw : RW) (r : Req) (s : St) :
    (build (ps.map (fun p => onionHandler p.1 p.2))).ServeHTTP ctx rw r s
      = (ps.foldr (fun p acc => p.2 acc) (ps.foldl (fun acc p => p.1 acc) s), none) := by
  induction ps generalizing s with
  | nil => rfl
  | cons p t ih =>
    simp only [List.map_cons, build_cons, middleware.ServeHTTP, onionHandler, ih,
      List.foldl_cons, List.foldr_cons]

/-- C8: building from the empty handler list yields the no-op terminal node
whose next pointer is the degenerate empty node; invoking that terminal
node once or twice is a safe no-op; and dispatching any request through a
zero-handler `Camillo` instance returns normally with no response write. -/
theorem empty_chain_noop (c : GoCtx) (ctx : GoCtx) (rw : RW) (r : Req) (s : St) :
    build [] = voidMiddleware
    ∧ voidMiddleware = middleware.node (fun _ _ _ _ s2 => (s2, none)) middleware.empty
    ∧ voidMiddleware.ServeHTTP ctx rw r s = (s, none)
    ∧ voidMiddleware.ServeHTTP ctx rw r (voidMiddleware.ServeHTTP ctx rw r s).1 = (s, none)
    ∧ ((Camillo.mk c (build [])).ServeHTTP rw r s).2 = none
    ∧ ((Camillo.mk c (build [])).ServeHTTP rw r s).1.resp = s.resp := by
  refine ⟨rfl, rfl, rfl, rfl, ?_, ?_⟩ <;>
    cases hget : s.store.Get r <;>
      simp [Camillo.ServeHTTP, hget, build, voidMiddleware, middleware.ServeHTTP]

theorem camillo_fresh_eq (n : Camillo) (rw : RW) (r : Req) (s : St)
    (h : s.store.Get r = none) :
    n.ServeHTTP rw r s =
      (let res := n.middleware.ServeHTTP
          (some (Ctx.cancelCtx (n.ctx.getD Ctx.background) s.nextCtxId)) (RW.wrapped rw) r
          { s with nextCtxId := s.nextCtxId + 1,
                   store := s.store.Add r
                     (some (Ctx.cancelCtx (n.ctx.getD Ctx.background) s.nextCtxId)) }
       ({ res.1 with store := res.1.store.Remove r,
                     cancelled := s.nextCtxId :: res.1.cancelled }, res.2)) := by
  cases n with
  | mk nctx mw =>
    cases nctx <;> simp [Camillo.ServeHTTP, h, Option.getD]

theorem camillo_dispatch_removes (n : Camillo) (rw : RW) (r : Req) (s : St)
    (h : s.store.Get r = none) :
    ((n.ServeHTTP rw r s).1).store.hasEntry r = false := by
  rw [camillo_fresh_eq n rw r s h]
  simp [contextStore.hasEntry_Remove]

/-- C2: on a dispatch whose request has no stored context, `ServeHTTP`
derives a cancellable context from the configured base context (falling
back to the root context when the base is nil), registers it in the store
under the request before invoking the chain head, and on every exit path —
the chain returning normally or panicking — removes the store entry,
cancels the derived context, and propagates the chain's panic status. -/
theorem camillo_fresh_dispatch (n : Camillo) (rw : RW) (r : Req) (s : St)
    (h : s.store.Get r = none) :
    (s.store.Add r (some (Ctx.cancelCtx (n.ctx.getD Ctx.background) s.nextCtxId))).Get r
        = some (Ctx.cancelCtx (n.ctx.getD Ctx.background) s.nextCtxId)
    ∧ n.ServeHTTP rw r s =
        (let res := n.middleware.ServeHTTP
            (some (Ctx.cancelCtx (n.ctx.getD Ctx.background) s.nextCtxId)) (RW.wrapped rw) r
            { s with nextCtxId := s.nextCtxId + 1,
                     store := s.store.Add r
                       (some (Ctx.cancelCtx (n.ctx.getD Ctx.background) s.nextCtxId)) }
         ({ res.1 with store := res.1.store.Remove r,
                       cancelled := s.nextCtxId :: res.1.cancelled }, res.2))
    ∧ (n.ServeHTTP rw r s).1.store.hasEntry r = false
    ∧ (n.ServeHTTP rw r s).1.store.Get r = none
    ∧ s.nextCtxId ∈ (n.ServeHTTP rw r s).1.cancelled
    ∧ (n.ServeHTTP rw r s).2
        = (n.middleware.ServeHTTP
            (some (Ctx.cancelCtx (n.ctx.getD Ctx.background) s.nextCtxId)) (RW.wrapped rw) r
            { s with nextCtxId := s.nextCtxId + 1,
                     store := s.store.Add r
                       (some (Ctx.cancelCtx (n.ctx.getD Ctx.background) s.nextCtxId)) }).2 := by
  have he := camillo_fresh_eq n rw r s h
  refine ⟨contextStore.Get_Add _ _ _, he, ?_, ?_, ?_, ?_⟩ <;>
    rw [he] <;>
      simp [contextStore.hasEntry_Remove, contextStore.Get_Remove]

theorem camillo_fresh_dispatch_witness :
    St0.store.Get 0 = none
    ∧ (camEmpty.ServeHTTP (RW.base 0) 0 St0).1.store.hasEntry 0 = false
    ∧ (camEmpty.ServeHTTP (RW.base 0) 0 St0).1.store.Get 0 = none
    ∧ (0 : Nat) ∈ (camEmpty.ServeHTTP (RW.base 0) 0 St0).1.cancelled :=
  ⟨rfl, (camillo_fresh_dispatch camEmpty (RW.base 0) 0 St0 rfl).2.2.1,
    (camillo_fresh_dispatch camEmpty (RW.base 0) 0 St0 rfl).2.2.2.1,
    (camillo_fresh_dispatch camEmpty (RW.base 0) 0 St0 rfl).2.2.2.2.1⟩

/-- C3: on a dispatch whose request already has a stored context, `ServeHTTP`
is exactly the chain-head invocation with the stored context and a wrapped
writer: the dispatcher itself performs no store `Add`, no `Remove` and no
cancellation, so the store and the cancelled set after the dispatch are
precisely whatever the chain itself left. -/
theorem camillo_reentrant_dispatch (n : Camillo) (rw : RW) (r : Req) (s : St)
    (c : Ctx) (h : s.store.Get r = some c) :
    n.ServeHTTP rw r s = n.middleware.ServeHTTP (some c) (RW.wrapped rw) r s
    ∧ (n.ServeHTTP rw r s).1.store
        = (n.middleware.ServeHTTP (some c) (RW.wrapped rw) r s).1.store
    ∧ (n.ServeHTTP rw r s).1.cancelled
        = (n.middleware.ServeHTTP (some c) (RW.wrapped rw) r s).1.cancelled := by
  have he : n.ServeHTTP rw r s = n.middleware.ServeHTTP (some c) (RW.wrapped rw) r s := by
    simp [Camillo.ServeHTTP, h]
  exact ⟨he, by rw [he], by rw [he]⟩

theorem camillo_reentrant_dispatch_witness :
    St1.store.Get 0 = some Ctx.background
    ∧ camEmpty.ServeHTTP (RW.base 0) 0 St1
        = camEmpty.middleware.ServeHTTP (some Ctx.background) (RW.wrapped (RW.base 0)) 0 St1 :=
  ⟨rfl, (camillo_reentrant_dispatch camEmpty (RW.base 0) 0 St1 Ctx.background rfl).1⟩

/-- C6: `Wrap h` first stores the current context in the shared store under
the request (so the state handed to the plain handler already answers `Get`
with that context), then invokes `h` with only the writer and request (its
type carries no context argument), then reads the context back from the
store for that request, and finally invokes `next` with the context so
retrieved. -/
theorem wrap_protocol (h : PlainHandler) (ctx : GoCtx) (rw : RW) (r : Req)
    (next : NextFunc) (s s2 : St)
    (hrun : h rw r { s with store := s.store.Add r ctx } = (s2, none)) :
    ({ s with store := s.store.Add r ctx } : St).store.Get r = ctx
    ∧ Wrap h ctx rw r next s = next (s2.store.Get r) rw r s2 := by
  refine ⟨contextStore.Get_Add s.store r ctx, ?_⟩
  simp only [Wrap]
  rw [hrun]

theorem wrap_protocol_witness :
    idPlainHandler (RW.base 0) 0 { St0 with store := St0.store.Add 0 (some Ctx.background) }
        = ({ St0 with store := St0.store.Add 0 (some Ctx.background) }, none)
    ∧ ({ St0 with store := St0.store.Add 0 (some Ctx.background) } : St).store.Get 0
        = some Ctx.background
    ∧ Wrap idPlainHandler (some Ctx.background) (RW.base 0) 0 haltNext St0
        = haltNext
            (({ St0 with store := St0.store.Add 0 (some Ctx.background) } : St).store.Get 0)
            (RW.base 0) 0 { St0 with store := St0.store.Add 0 (some Ctx.background) } :=
  ⟨rfl,
    (wrap_protocol idPlainHandler (some Ctx.background) (RW.base 0) 0 haltNext St0
      { St0 with store := St0.store.Add 0 (some Ctx.background) } rfl).1,
    (wrap_protocol idPlainHandler (some Ctx.background) (RW.base 0) 0 haltNext St0
      { St0 with store := St0.store.Add 0 (some Ctx.background) } rfl).2⟩

/-- C7: `Recovery.ServeHTTP` never lets a panic out (its result carries no
panic on either branch); when the downstream call panics it writes a 500
status, logs the panic value with the captured stack trace, and appends the
panic and trace to the response body exactly when `PrintStack` is set; when
the downstream call returns normally it writes nothing and returns the
downstream state unchanged. -/
theorem recovery_contract (rec : Recovery) (ctx : GoCtx) (rw : RW) (r : Req)
    (next : NextFunc) (s : St) :
    (rec.ServeHTTP ctx rw r next s).2 = none
    ∧ (∀ s1 p, next ctx rw r s = (s1, some p) →
        rec.ServeHTTP ctx rw r next s
          = ({ s1 with
                resp := (s1.resp ++ [RespEvent.writeHeader 500])
                  ++ (if rec.printStack then
                        [RespEvent.bodyPanic p ⟨rec.stackSize, rec.stackAll⟩]
                      else []),
                logs := s1.logs ++ [LogEvent.panicLog p ⟨rec.stackSize, rec.stackAll⟩] },
              none))
    ∧ (∀ s1, next ctx rw r s = (s1, none) →
        rec.ServeHTTP ctx rw r next s = (s1, none)) := by
  refine ⟨?_, ?_, ?_⟩
  · rcases hnx : next ctx rw r s with ⟨s1, p⟩
    cases p <;> simp [Recovery.ServeHTTP, hnx]
  · intro s1 p hnx
    cases hps : rec.printStack <;> simp [Recovery.ServeHTTP, hnx, hps]
  · intro s1 hnx
    simp [Recovery.ServeHTTP, hnx]

theorem recovery_contract_witness :
    panickingNext none (RW.base 0) 0 St0 = (St0, some (PanicV.val 7))
    ∧ Recovery.ServeHTTP defaultRecovery none (RW.base 0) 0 panickingNext St0
        = ({ St0 with
              resp := [RespEvent.writeHeader 500,
                RespEvent.bodyPanic (PanicV.val 7) ⟨8192, false⟩],
              logs := [LogEvent.panicLog (PanicV.val 7) ⟨8192, false⟩] }, none) := by
  refine ⟨rfl, ?_⟩
  exact (recovery_contract defaultRecovery none (RW.base 0) 0 panickingNext St0).2.1
    St0 (PanicV.val 7) rfl

/-- C10: `Wrap` adds a store entry for the request and never removes it —
whenever the plain handler itself preserves the entry, the entry is still
present in the state `Wrap` hands to `next`, and `Wrap`'s result is exactly
that `next` call (nothing runs after it); the entry disappears only through
the outermost dispatcher, whose deferred `Remove` leaves the store without
an entry for the request when the dispatch call returns. -/
theorem wrap_keeps_entry (h : PlainHandler) (r : Req)
    (hpres : ∀ rw st, st.store.hasEntry r = true →
      ((h rw r st).1).store.hasEntry r = true)
    (ctx : GoCtx) (rw : RW) (next : NextFunc) (s s2 : St)
    (hrun : h rw r { s with store := s.store.Add r ctx } = (s2, none)) :
    s2.store.hasEntry r = true
    ∧ Wrap h ctx rw r next s = next (s2.store.Get r) rw r s2
    ∧ ∀ (n : Camillo) (rw2 : RW) (s3 : St), s3.store.Get r = none →
        ((n.ServeHTTP rw2 r s3).1).store.hasEntry r = false := by
  refine ⟨?_, ?_, ?_⟩
  · have h1 : ({ s with store := s.store.Add r ctx } : St).store.hasEntry r = true :=
      contextStore.hasEntry_Add s.store r ctx
    have h2 := hpres rw { s with store := s.store.Add r ctx } h1
    rw [hrun] at h2
    exact h2
  · simp only [Wrap]
    rw [hrun]
  · intro n rw2 s3 hg
    exact camillo_dispatch_removes n rw2 r s3 hg

theorem wrap_keeps_entry_witness :
    (∀ rw st, st.store.hasEntry 0 = true →
      ((idPlainHandler rw 0 st).1).store.hasEntry 0 = true)
    ∧ idPlainHandler (RW.base 0) 0 { St0 with store := St0.store.Add 0 (some Ctx.background) }
        = ({ St0 with store := St0.store.Add 0 (some Ctx.background) }, none)
    ∧ ({ St0 with store := St0.store.Add 0 (some Ctx.background) } : St).store.hasEntry 0
        = true :=
  ⟨fun _ _ hh => hh, rfl,
    (wrap_keeps_entry idPlainHandler 0 (fun _ _ hh => hh) (some Ctx.background) (RW.base 0)
      haltNext St0 { St0 with store := St0.store.Add 0 (some Ctx.background) } rfl).1⟩
